import Mathlib

/-!
Verification development for the vibecraft voxel engine.

Shallow embedding of the chunk/world core (`src/world/Chunk.ts`, `World.ts`):
voxel kinds, chunk data, terrain generation, face visibility and meshing,
world-coordinate translation, block reads/writes, chunk streaming and ray
casting.  JavaScript numbers are modelled as exact integers (`Int`) and exact
rationals (`Rat`); JavaScript `%` on integers is the truncated remainder
(sign of the dividend), written `jsMod` below, and `Math.floor` of an exact
power-of-two division of an integer is floored division.
-/

namespace Vibecraft

/-- The voxel kinds of `BlockType.ts` (the enumeration used throughout). -/
inductive BlockType where
  | AIR
  | BEDROCK
  | STONE
  | DIRT
  | GRASS
  | SAND
  | WATER
  | GLASS
  | LEAVES
  | WOOD
  | BRICK
deriving DecidableEq, Repr

/-- The kinds tagged transparent: `[BlockType.WATER, BlockType.GLASS, BlockType.LEAVES]`. -/
def transparentTypes : List BlockType := [.WATER, .GLASS, .LEAVES]

/-- A chunk's dense voxel store `blocks[x][y][z]`, as a total function on local
coordinates (the source array is `size × height × size`; accesses are always
bounds-checked before indexing). -/
abbrev ChunkData := ℤ → ℤ → ℤ → BlockType

/-- The world back-reference a chunk may hold (`world.getBlock` as a function). -/
abbrev WorldLookup := ℤ → ℤ → ℤ → BlockType

/-- The `Math.floor` of an exact rational, computably: `⌊q⌋ = q.num / q.den`
(floored integer division, divisor positive). -/
def ratFloor (q : ℚ) : ℤ := q.num / (q.den : ℤ)

/-- The `Math.ceil` of an exact rational, computably. -/
def ratCeil (q : ℚ) : ℤ := -ratFloor (-q)

/-- JavaScript `x % n` on integers: remainder with the sign of the dividend
(truncated division remainder).  Lean's `%` on `Int` is the Euclidean one,
so the negative-dividend case is spelled out. -/
def jsMod (x n : ℤ) : ℤ := if 0 ≤ x then x % n else -((-x) % n)

/-- The value `Math.floor(x / CHUNK_SIZE)` for an integer world coordinate: division by
16 is exact in binary floating point, so this is floored division. -/
def chunkCoordOf (x : ℤ) : ℤ := x / 16

/-- The local coordinate computed by `World.getBlock`/`setBlock`:
`localX = Math.floor(x % CHUNK_SIZE)` followed by
`adjustedLocalX = localX < 0 ? localX + CHUNK_SIZE : localX`. -/
def localCoordOf (x : ℤ) : ℤ :=
  if jsMod x 16 < 0 then jsMod x 16 + 16 else jsMod x 16

/-- Source `Chunk.getBlock`: bounds-checked local read, air when out of range. -/
def Chunk.getBlock (size height : ℤ) (b : ChunkData) (x y z : ℤ) : BlockType :=
  if x < 0 ∨ size ≤ x ∨ y < 0 ∨ height ≤ y ∨ z < 0 ∨ size ≤ z then .AIR
  else b x y z

/-- Source `Chunk.setBlock`: bounds-checked local write followed by a synchronous
`updateMesh`.  Returns the new voxel store and whether the rebuild ran
(out-of-range writes return before both the store update and the rebuild). -/
def Chunk.setBlock (size height : ℤ) (b : ChunkData) (x y z : ℤ) (t : BlockType) :
    ChunkData × Bool :=
  if x < 0 ∨ size ≤ x ∨ y < 0 ∨ height ≤ y ∨ z < 0 ∨ size ≤ z then (b, false)
  else ((fun a yy c => if a = x ∧ yy = y ∧ c = z then t else b a yy c), true)

/-- Source `Chunk.getTerrainHeight`: three octaves of the chunk's noise source
(scales 0.01, 0.05, 0.2; magnitudes 20, 10, 3) summed onto base height 10,
clamped to `[1, height - 1]`. -/
def terrainHeightAt (noise : ℚ → ℚ → ℚ) (height : ℤ) (x z : ℤ) : ℚ :=
  let largeNoise := noise ((x : ℚ) * (1 / 100)) ((z : ℚ) * (1 / 100)) * 20
  let mediumNoise := noise ((x : ℚ) * (5 / 100)) ((z : ℚ) * (5 / 100)) * 10
  let smallNoise := noise ((x : ℚ) * (2 / 10)) ((z : ℚ) * (2 / 10)) * 3
  max 1 (min ((height : ℤ) - 1 : ℤ) ((10 : ℚ) + largeNoise + mediumNoise + smallNoise))

/-- The per-voxel branch chain of the fill loop in `Chunk.generate` (lines
75–111): bedrock at `y = 0`; stone strictly below `h - 4`; dirt strictly
below `h - 1`; the threshold surface block exactly at `y = ⌊h - 1⌋`; water
below `y = 10` when `h < 10`; otherwise air. -/
def terrainBlock (h : ℚ) (y : ℤ) : BlockType :=
  if y = 0 then .BEDROCK
  else if (y : ℚ) < h - 4 then .STONE
  else if (y : ℚ) < h - 1 then .DIRT
  else if y = ratFloor (h - 1) then
    if h < 12 then .SAND
    else if h > 24 then .STONE
    else .GRASS
  else if y < 10 ∧ h < 10 then .WATER
  else .AIR

/-- One column's bottom-to-top fill in `Chunk.generate`: every `y ∈ [0, height)`
of column `(x, z)` is set to `terrainBlock h y`. -/
def fillColumn (height : ℤ) (b : ChunkData) (x z : ℤ) (h : ℚ) : ChunkData :=
  fun a yy c =>
    if a = x ∧ c = z ∧ 0 ≤ yy ∧ yy < height then terrainBlock h yy else b a yy c

/-- Source `Chunk.generateTree`: skipped whole (consuming no random draw) when within
2 voxels of the horizontal chunk edge or too tall to fit; otherwise one draw
fixes the trunk height `4 + Math.floor(Math.random() * 3)`, the trunk cells
become wood and a radius-2 sphere of leaves (Euclidean test
`lX² + lY² + lZ² ≤ 4`, which is `Math.sqrt(...) ≤ 2` exactly on integers) is
written around the trunk top, clipped to chunk bounds, never overwriting
trunk cells (`¬(lX = 0 ∧ lZ = 0 ∧ lY < 0)`).  Returns the new store and the
next unused random index. -/
def generateTree (size height : ℤ) (rand : ℕ → ℚ) (b : ChunkData) (x y z : ℤ) (r : ℕ) :
    ChunkData × ℕ :=
  if x < 2 ∨ size - 2 ≤ x ∨ z < 2 ∨ size - 2 ≤ z ∨ height ≤ y + 5 then (b, r)
  else
    let trunkHeight : ℤ := 4 + ratFloor (rand r * 3)
    let withTrunk : ChunkData := fun a yy c =>
      if a = x ∧ c = z ∧ y ≤ yy ∧ yy < y + trunkHeight then .WOOD else b a yy c
    let withLeaves : ChunkData := fun a yy c =>
      let lX := a - x
      let lY := yy - (y + trunkHeight)
      let lZ := c - z
      if -2 ≤ lX ∧ lX ≤ 2 ∧ -2 ≤ lY ∧ lY ≤ 2 ∧ -2 ≤ lZ ∧ lZ ≤ 2 ∧
          lX * lX + lY * lY + lZ * lZ ≤ 4 ∧
          0 ≤ a ∧ a < size ∧ 0 ≤ yy ∧ yy < height ∧ 0 ≤ c ∧ c < size ∧
          ¬(lX = 0 ∧ lZ = 0 ∧ lY < 0) then .LEAVES
      else withTrunk a yy c
    (withLeaves, r + 1)

/-- One `(x, z)` iteration of the generation loop in `Chunk.generate`: fill the
column from its terrain height, then, when the voxel at `⌊h - 1⌋` is grass,
consume one random draw and place a tree at `(x, ⌊h⌋, z)` when it is below
0.02. -/
def generateColumn (noise : ℚ → ℚ → ℚ) (size height : ℤ) (rand : ℕ → ℚ) (cx cz : ℤ)
    (x z : ℤ) : ChunkData × ℕ → ChunkData × ℕ :=
  fun s =>
    let h := terrainHeightAt noise height (cx * size + x) (cz * size + z)
    let b1 := fillColumn height s.1 x z h
    if b1 x (ratFloor (h - 1)) z = .GRASS then
      if rand s.2 < 2 / 100 then generateTree size height rand b1 x (ratFloor h) z (s.2 + 1)
      else (b1, s.2 + 1)
    else (b1, s.2)

/-- The `(x, z)` iteration order of `Chunk.generate`: `x` outer, `z` inner,
each from 0 to `size - 1`. -/
def colIndices (size : ℤ) : List (ℤ × ℤ) :=
  (List.range size.toNat).flatMap fun x =>
    (List.range size.toNat).map fun z => ((x : ℤ), (z : ℤ))

/-- Source `Chunk.generate` for chunk `(cx, cz)`: starting from the all-air store of
the constructor, fill every column and place trees, threading the stream of
`Math.random()` draws (`rand`) left to right. -/
def Chunk.generate (noise : ℚ → ℚ → ℚ) (size height cx cz : ℤ) (rand : ℕ → ℚ) :
    ChunkData :=
  ((colIndices size).foldl
    (fun s xz => generateColumn noise size height rand cx cz xz.1 xz.2 s)
    ((fun _ _ _ => .AIR), 0)).1

/-- The world's sparse chunk map.  The source keys chunks by the string
`"cx,cz"`, an injective encoding of the pair, so the map is modelled directly
on coordinate pairs. -/
abbrev WorldChunks := ℤ × ℤ → Option ChunkData

/-- Source `World.getBlock` (CHUNK_SIZE = 16, WORLD_HEIGHT = 128): air outside the
vertical bounds or for a missing chunk, otherwise the owning chunk's
bounds-checked read at the adjusted local coordinates. -/
def World.getBlock (w : WorldChunks) (x y z : ℤ) : BlockType :=
  if y < 0 ∨ 128 ≤ y then .AIR
  else
    match w (chunkCoordOf x, chunkCoordOf z) with
    | none => .AIR
    | some ch => Chunk.getBlock 16 128 ch (localCoordOf x) y (localCoordOf z)

/-- Source `World.updateNeighborChunksIfNeeded`: recomputes the UNADJUSTED local
coordinates (`Math.floor(x % 16)`, no negative correction) and, when either
lies on `{0, 15}`, rebuilds the mesh of every loaded chunk among the four
horizontal neighbours (west, east, north, south), in that order.  Returns the
list of chunk coordinates whose `updateMesh` ran. -/
def neighborRebuilds (w : WorldChunks) (x z : ℤ) : List (ℤ × ℤ) :=
  let lX := jsMod x 16
  let lZ := jsMod z 16
  if lX = 0 ∨ lX = 15 ∨ lZ = 0 ∨ lZ = 15 then
    [((-1 : ℤ), (0 : ℤ)), (1, 0), (0, -1), (0, 1)].filterMap fun d =>
      let key := (chunkCoordOf x + d.1, chunkCoordOf z + d.2)
      if (w key).isSome then some key else none
  else []

/-- Source `World.setBlock`: drop writes outside the vertical bounds or to a missing
chunk; otherwise write through `Chunk.setBlock` at the adjusted locals (which
rebuilds that chunk's mesh) and then run the neighbour-rebuild pass.  Returns
the new chunk map together with the list of chunk coordinates whose mesh was
rebuilt, in call order. -/
def World.setBlock (w : WorldChunks) (x y z : ℤ) (t : BlockType) :
    WorldChunks × List (ℤ × ℤ) :=
  if y < 0 ∨ 128 ≤ y then (w, [])
  else
    match w (chunkCoordOf x, chunkCoordOf z) with
    | none => (w, [])
    | some ch =>
      let res := Chunk.setBlock 16 128 ch (localCoordOf x) y (localCoordOf z) t
      let w' : WorldChunks :=
        fun k => if k = (chunkCoordOf x, chunkCoordOf z) then some res.1 else w k
      (w', (if res.2 then [(chunkCoordOf x, chunkCoordOf z)] else []) ++ neighborRebuilds w x z)

/-- A ray-cast hit: the floored voxel coordinate, the backward-difference
normal and the voxel kind found there. -/
structure RayHit where
  position : ℤ × ℤ × ℤ
  normal : ℤ × ℤ × ℤ
  blockType : BlockType
deriving DecidableEq, Repr

/-- The marching loop of `World.raycast` with step 0.1, counted down by the
remaining iteration budget: sample the voxel at the floored current position;
on the first non-air voxel derive the normal by flooring the position one
step backwards along the ray and differencing per axis. -/
def raycastAux (w : WorldChunks) (ray : ℚ × ℚ × ℚ) :
    (ℚ × ℚ × ℚ) → ℕ → Option RayHit
  | _, 0 => none
  | pos, n + 1 =>
    let x := ratFloor pos.1
    let y := ratFloor pos.2.1
    let z := ratFloor pos.2.2
    let bt := World.getBlock w x y z
    if bt ≠ .AIR then
      let dx := ratFloor (pos.1 - ray.1 * (1 / 10)) - x
      let dy := ratFloor (pos.2.1 - ray.2.1 * (1 / 10)) - y
      let dz := ratFloor (pos.2.2 - ray.2.2 * (1 / 10)) - z
      some ⟨(x, y, z), (dx, dy, dz), bt⟩
    else
      raycastAux w ray
        (pos.1 + ray.1 * (1 / 10), pos.2.1 + ray.2.1 * (1 / 10),
          pos.2.2 + ray.2.2 * (1 / 10)) n

/-- Source `World.raycast(origin, direction, maxDistance)`: the loop runs for the
integers `i < maxDistance / 0.1`, i.e. `⌈maxDistance / 0.1⌉` iterations for a
positive bound.  The source normalizes the direction with floating-point
`Vector3.normalize`; the embedding takes the direction as given, which is the
identity normalization for unit-length directions such as `(0, -1, 0)`. -/
def World.raycast (w : WorldChunks) (origin direction : ℚ × ℚ × ℚ)
    (maxDistance : ℚ) : Option RayHit :=
  raycastAux w direction origin (ratCeil (maxDistance / (1 / 10))).toNat

/-- Source `World.update(playerPos)` (RENDER_DISTANCE = 3): compute the observer's
chunk coordinate, generate every missing chunk of the surrounding
7×7 square, then dispose every loaded chunk outside it.  `gen` stands for the
chunk construction + `generate()` performed for a missing key (its noise and
random environment); a present key is left untouched.  Pointwise this leaves
exactly the required square loaded. -/
def World.update (gen : ℤ × ℤ → ChunkData) (w : WorldChunks) (p : ℚ × ℚ × ℚ) :
    WorldChunks :=
  let pcx := ratFloor (p.1 / 16)
  let pcz := ratFloor (p.2.2 / 16)
  fun c =>
    if pcx - 3 ≤ c.1 ∧ c.1 ≤ pcx + 3 ∧ pcz - 3 ≤ c.2 ∧ c.2 ≤ pcz + 3 then
      match w c with
      | some ch => some ch
      | none => some (gen c)
    else none

/-- Source `Chunk.isFaceVisible`: for an in-bounds neighbour, visible iff the
neighbour is air, or both kinds are transparent and differ, or the neighbour
is transparent and differs from the current kind.  For an out-of-bounds
neighbour, defer to the world read at the corresponding world coordinate
(visible iff that is air, or transparent and different); with no world
reference the face is visible. -/
def Chunk.isFaceVisible (size height : ℤ) (b : ChunkData) (world : Option WorldLookup)
    (cx cz x y z dx dy dz : ℤ) : Bool :=
  let nx := x + dx
  let ny := y + dy
  let nz := z + dz
  if nx < 0 ∨ size ≤ nx ∨ ny < 0 ∨ height ≤ ny ∨ nz < 0 ∨ size ≤ nz then
    match world with
    | some getB =>
      let adjacentBlockType := getB (cx * size + x + dx) ny (cz * size + z + dz)
      if adjacentBlockType = .AIR then true
      else if b x y z ≠ adjacentBlockType ∧ adjacentBlockType ∈ transparentTypes then true
      else false
    | none => true
  else
    let adjacentType := b nx ny nz
    let currentType := b x y z
    if adjacentType = .AIR then true
    else if currentType ≠ adjacentType ∧ currentType ∈ transparentTypes ∧
        adjacentType ∈ transparentTypes then true
    else decide (currentType ≠ adjacentType ∧ adjacentType ∈ transparentTypes)

/-- The face directions of `updateMesh`, in source order:
right, left, top, bottom, front, back. -/
def dirVec : Fin 6 → ℤ × ℤ × ℤ
  | 0 => (1, 0, 0)
  | 1 => (-1, 0, 0)
  | 2 => (0, 1, 0)
  | 3 => (0, -1, 0)
  | 4 => (0, 0, 1)
  | 5 => (0, 0, -1)

/-- The opposite face direction index. -/
def oppDir : Fin 6 → Fin 6
  | 0 => 1
  | 1 => 0
  | 2 => 3
  | 3 => 2
  | 4 => 5
  | 5 => 4

/-- The condition under which `updateMesh` pushes a quad for voxel `p` in
direction `i`: the voxel is not air (air voxels are skipped) and
`isFaceVisible` holds for that direction. -/
def emitsFace (size height : ℤ) (b : ChunkData) (world : Option WorldLookup)
    (cx cz : ℤ) (p : ℤ × ℤ × ℤ) (i : Fin 6) : Bool :=
  decide (b p.1 p.2.1 p.2.2 ≠ .AIR) &&
    Chunk.isFaceVisible size height b world cx cz p.1 p.2.1 p.2.2
      (dirVec i).1 (dirVec i).2.1 (dirVec i).2.2

/-- The voxel positions `updateMesh` iterates over. -/
def chunkBox (size height : ℤ) : Finset (ℤ × ℤ × ℤ) :=
  Finset.Icc 0 (size - 1) ×ˢ Finset.Icc 0 (height - 1) ×ˢ Finset.Icc 0 (size - 1)

/-- The set of quads `Chunk.updateMesh` emits, identified by (voxel position,
face direction); the triple loop visits each such pair exactly once, so the
emitted geometry contains one quad per member of this set. -/
def updateMeshFaces (size height : ℤ) (b : ChunkData) (world : Option WorldLookup)
    (cx cz : ℤ) : Finset ((ℤ × ℤ × ℤ) × Fin 6) :=
  (chunkBox size height ×ˢ (Finset.univ : Finset (Fin 6))).filter
    fun q => emitsFace size height b world cx cz q.1 q.2 = true

/-! ### Concrete fixtures used by counterexamples and witnesses -/

/-- A constant noise source with value 1/3: every column's terrain height is
`10 + 33 * (1/3) = 21`, whose surface block is grass. -/
def noiseThird : ℚ → ℚ → ℚ := fun _ _ => 1 / 3

/-- A constant noise source with value 7/22: every column's terrain height is
`10 + 33 * (7/22) = 20.5`, a non-integer height between the sand and stone
thresholds. -/
def noiseMid : ℚ → ℚ → ℚ := fun _ _ => 7 / 22

/-- A `Math.random()` stream that always returns 1/2 (never below the 2%
tree probability: no trees). -/
def randHalf : ℕ → ℚ := fun _ => 1 / 2

/-- A `Math.random()` stream that always returns 0 (always below the 2%
tree probability: a tree in every eligible grass column). -/
def randZero : ℕ → ℚ := fun _ => 0

/-- A `Math.random()` stream that always returns 9/10 (no trees either). -/
def randNine : ℕ → ℚ := fun _ => 9 / 10

/-- A chunk whose voxels are all stone. -/
def chStone : ChunkData := fun _ _ _ => .STONE

/-- A world with two loaded chunks, at `(0,0)` and at `(1,0)` (east). -/
def wEastPair : WorldChunks :=
  fun c => if c = (0, 0) ∨ c = (1, 0) then some chStone else none

/-- A world with two loaded chunks, at `(0,0)` and at `(-1,0)` (west). -/
def wWestPair : WorldChunks :=
  fun c => if c = (0, 0) ∨ c = (-1, 0) then some chStone else none

/-- A world with a single loaded chunk at `(0,0)`. -/
def wOrigin : WorldChunks := fun c => if c = (0, 0) then some chStone else none

/-- A world with a single loaded chunk at `(-1, -2)` — the chunk owning the
negative world coordinate `(x, z) = (-3, -17)`. -/
def wNeg : WorldChunks := fun c => if c = (-1, -2) then some chStone else none

/-- The flat-column scenario exactly as the spec words it: a `1×H×1` column
(world `x = z = 0`) whose voxels are stone except `y = 50`, which is air;
everything outside the column is air. -/
def colLiteral : ChunkData :=
  fun x y z => if x = 0 ∧ z = 0 ∧ ¬(y = 50) then .STONE else .AIR

/-- The world holding `colLiteral` as chunk `(0,0)`. -/
def wLiteral : WorldChunks := fun c => if c = (0, 0) then some colLiteral else none

/-- The flat-column scenario as the spec must have meant it: the `1×H×1`
column is stone strictly below `y = 50` and air from `y = 50` upwards. -/
def colGap : ChunkData :=
  fun x y z => if x = 0 ∧ z = 0 ∧ y < 50 then .STONE else .AIR

/-- The world holding `colGap` as chunk `(0,0)`. -/
def wGap : WorldChunks := fun c => if c = (0, 0) then some colGap else none

/-! ### Basic lemmas about the embedded numeric helpers -/

/-- The helper `ratFloor` is the mathematical floor. -/
theorem ratFloor_eq (q : ℚ) : ratFloor q = ⌊q⌋ := Rat.floor_def.symm

/-- The helper `ratCeil` is the mathematical ceiling. -/
theorem ratCeil_eq (q : ℚ) : ratCeil q = ⌈q⌉ := by
  rw [ratCeil, ratFloor_eq, Int.floor_neg, neg_neg]

/-- The adjusted local coordinate of the source is exactly the Euclidean
(floored) modulo by the chunk size. -/
theorem localCoordOf_eq_emod (x : ℤ) : localCoordOf x = x % 16 := by
  unfold localCoordOf jsMod
  split_ifs <;> omega

/-- The adjusted local coordinate lies in `[0, 16)`. -/
theorem localCoordOf_bounds (x : ℤ) : 0 ≤ localCoordOf x ∧ localCoordOf x < 16 := by
  rw [localCoordOf_eq_emod]
  omega

/-- Chunk decomposition is the floored one: `chunkCoordOf x = ⌊x / 16⌋`. -/
theorem chunkCoordOf_eq (x : ℤ) : chunkCoordOf x * 16 + x % 16 = x := by
  unfold chunkCoordOf
  omega

/-! ### Claim theorems -/

/-- Claim C2: coordinate round-trip.  For every integer world coordinate, the
decomposition used by `World.getBlock`/`setBlock` — chunk coordinate
`Math.floor(x / 16)` and adjusted local coordinate — is the floored
(Euclidean) division/modulo pair: recomposing `chunk * 16 + local` yields the
original coordinate, the local coordinate always lies in `[0, 16)` and equals
the Euclidean modulo, and this holds for negative coordinates as well (both
the `x` and the `z` axis use the same computation). -/
theorem coordinate_round_trip (x z : ℤ) :
    chunkCoordOf x * 16 + localCoordOf x = x ∧
    chunkCoordOf z * 16 + localCoordOf z = z ∧
    (0 ≤ localCoordOf x ∧ localCoordOf x < 16) ∧
    (0 ≤ localCoordOf z ∧ localCoordOf z < 16) ∧
    localCoordOf x = x % 16 ∧ localCoordOf z = z % 16 := by
  refine ⟨?_, ?_, ?_, ?_, localCoordOf_eq_emod x, localCoordOf_eq_emod z⟩ <;>
    simp only [localCoordOf_eq_emod, chunkCoordOf] <;> omega

/-- Claim C8: out-of-range degradation.  Reads at out-of-range vertical
coordinates or into a missing chunk return air regardless of the current
world state; the corresponding writes return the world unchanged with no
mesh rebuild.  At chunk level, out-of-bounds local reads return air and
out-of-bounds local writes leave the voxel store unchanged and do not
rebuild the mesh. -/
theorem out_of_range_degradation (w : WorldChunks) (x y z : ℤ) (t : BlockType) :
    (y < 0 ∨ 128 ≤ y →
      World.getBlock w x y z = .AIR ∧ World.setBlock w x y z t = (w, [])) ∧
    (w (chunkCoordOf x, chunkCoordOf z) = none →
      World.getBlock w x y z = .AIR ∧ World.setBlock w x y z t = (w, [])) ∧
    ∀ (size height : ℤ) (b : ChunkData),
      (x < 0 ∨ size ≤ x ∨ y < 0 ∨ height ≤ y ∨ z < 0 ∨ size ≤ z) →
        Chunk.getBlock size height b x y z = .AIR ∧
        Chunk.setBlock size height b x y z t = (b, false) := by
  refine ⟨fun hy => ?_, fun hch => ?_, fun size height b hb => ?_⟩
  · rw [World.getBlock, World.setBlock]
    rw [if_pos hy, if_pos hy]
    exact ⟨rfl, rfl⟩
  · rw [World.getBlock, World.setBlock]
    by_cases hy : y < 0 ∨ 128 ≤ y
    · rw [if_pos hy, if_pos hy]; exact ⟨rfl, rfl⟩
    · rw [if_neg hy, if_neg hy, hch]; exact ⟨rfl, rfl⟩
  · rw [Chunk.getBlock, Chunk.setBlock, if_pos hb, if_pos hb]
    exact ⟨rfl, rfl⟩

/-- Claim C9: write/read consistency.  For every in-bounds world coordinate
whose owning chunk is loaded — negative world coordinates included — writing
kind `t` with `World.setBlock` and then reading the same coordinate with
`World.getBlock` returns `t`. -/
theorem set_then_get (w : WorldChunks) (x y z : ℤ) (t : BlockType) (ch : ChunkData)
    (hy0 : 0 ≤ y) (hy1 : y < 128)
    (hch : w (chunkCoordOf x, chunkCoordOf z) = some ch) :
    World.getBlock (World.setBlock w x y z t).1 x y z = t := by
  have hy : ¬(y < 0 ∨ 128 ≤ y) := by omega
  have hlx := localCoordOf_bounds x
  have hlz := localCoordOf_bounds z
  have hb : ¬(localCoordOf x < 0 ∨ (16 : ℤ) ≤ localCoordOf x ∨ y < 0 ∨ (128 : ℤ) ≤ y ∨
      localCoordOf z < 0 ∨ (16 : ℤ) ≤ localCoordOf z) := by omega
  simp only [World.setBlock, if_neg hy, hch, World.getBlock, Chunk.setBlock, if_neg hb,
    Chunk.getBlock, if_pos rfl]
  simp

/-- Witness for C9 at a concrete negative coordinate: the owning chunk of
world position `(-3, 5, -17)` is `(-1, -2)`; after writing grass there the
read returns grass. -/
theorem set_then_get_witness :
    (0 : ℤ) ≤ 5 ∧ (5 : ℤ) < 128 ∧
    wNeg (chunkCoordOf (-3), chunkCoordOf (-17)) = some chStone ∧
    World.getBlock (World.setBlock wNeg (-3) 5 (-17) .GRASS).1 (-3) 5 (-17) =
      .GRASS := by
  refine ⟨by decide, by decide, rfl, ?_⟩
  exact set_then_get wNeg (-3) 5 (-17) .GRASS chStone (by decide) (by decide) rfl
/-- Claim C3: streaming convergence.  For every observer position, after
`World.update` the chunk map holds a chunk at coordinate `c` exactly when `c`
lies within Chebyshev distance 3 (RENDER_DISTANCE) of the observer's chunk
coordinate: every required chunk is present and no chunk outside the square
remains loaded, for any prior map contents and any generator. -/
theorem update_loaded_iff_chebyshev (gen : ℤ × ℤ → ChunkData) (w : WorldChunks)
    (p : ℚ × ℚ × ℚ) (c : ℤ × ℤ) :
    (World.update gen w p c).isSome = true ↔
      max (c.1 - ratFloor (p.1 / 16)).natAbs (c.2 - ratFloor (p.2.2 / 16)).natAbs ≤ 3 := by
  unfold World.update
  by_cases hc : ratFloor (p.1 / 16) - 3 ≤ c.1 ∧ c.1 ≤ ratFloor (p.1 / 16) + 3 ∧
      ratFloor (p.2.2 / 16) - 3 ≤ c.2 ∧ c.2 ≤ ratFloor (p.2.2 / 16) + 3
  · rw [if_pos hc]
    cases w c <;> simp <;> omega
  · rw [if_neg hc]
    simp only [Option.isSome_none, Bool.false_eq_true, false_iff]
    omega

/-- Claim C10: edits persist while in range.  A chunk that is loaded before
`World.update` and lies within Chebyshev distance 3 of the observer's chunk
coordinate is neither regenerated nor disposed: the very same voxel store —
including every block previously written — is still mapped afterwards. -/
theorem update_preserves_loaded_chunk (gen : ℤ × ℤ → ChunkData) (w : WorldChunks)
    (p : ℚ × ℚ × ℚ) (c : ℤ × ℤ) (ch : ChunkData) (hc : w c = some ch)
    (hx : (c.1 - ratFloor (p.1 / 16)).natAbs ≤ 3)
    (hz : (c.2 - ratFloor (p.2.2 / 16)).natAbs ≤ 3) :
    World.update gen w p c = some ch := by
  unfold World.update
  rw [if_pos (by omega), hc]

unseal Rat.add Rat.mul Rat.inv Rat.sub in
/-- Witness for C10: a world holding only chunk `(0,0)` and an observer at the
origin; after `update` the chunk's voxel store is still mapped unchanged. -/
theorem update_preserves_loaded_chunk_witness :
    wOrigin (0, 0) = some chStone ∧
    ((0 : ℤ) - ratFloor ((0 : ℚ) / 16)).natAbs ≤ 3 ∧
    World.update (fun _ => chStone) wOrigin (0, 0, 0) (0, 0) = some chStone := by
  refine ⟨rfl, by decide, ?_⟩
  exact update_preserves_loaded_chunk (fun _ => chStone) wOrigin (0, 0, 0) (0, 0) chStone
    rfl (by decide) (by decide)
/-- Claim C4 counterexample: writing grass at world `(0, 5, 5)` — local
`x = 0` of chunk `(0,0)` — in a world where chunks `(0,0)` and `(1,0)` are
loaded rebuilds the meshes of `(0,0)` and of `(1,0)`.  Chunk `(1,0)` is
loaded and does not share the local-`x = 0` edge (that edge is shared with
`(-1,0) = (cx-1, cz)`), so the claim that no such chunk is rebuilt is false. -/
theorem setBlock_rebuild_counterexample :
    localCoordOf 0 = 0 ∧
    (wEastPair (1, 0)).isSome = true ∧
    (World.setBlock wEastPair 0 5 5 .GRASS).2 = [(0, 0), (1, 0)] ∧
    ((1 : ℤ), (0 : ℤ)) ≠ (chunkCoordOf 0 - 1, chunkCoordOf 0) := by decide

/-- The unadjusted JavaScript remainder is 0 whenever the adjusted local
coordinate is 0. -/
theorem jsMod_eq_zero_of_local {x : ℤ} (hl : localCoordOf x = 0) : jsMod x 16 = 0 := by
  unfold localCoordOf at hl
  split_ifs at hl <;> [skip; exact hl]
  unfold jsMod at hl ⊢
  split_ifs at hl ⊢ <;> omega

/-- Claim C4, amended: for every in-bounds write whose local coordinate is
`x = 0` of loaded chunk `(cx, cz)` — negative world coordinates included —
`World.setBlock` rebuilds the mesh of `(cx-1, cz)` if that chunk is loaded;
however, the rebuild set is not limited to the edge-sharing neighbour: it is
exactly the written chunk followed by every loaded chunk among all four
horizontal neighbours `(cx±1, cz)` and `(cx, cz±1)`. -/
theorem setBlock_boundary_rebuilds (w : WorldChunks) (x y z : ℤ) (t : BlockType)
    (hy0 : 0 ≤ y) (hy1 : y < 128) (hl : localCoordOf x = 0)
    (hch : (w (chunkCoordOf x, chunkCoordOf z)).isSome = true) :
    (World.setBlock w x y z t).2 =
      (chunkCoordOf x, chunkCoordOf z) :: neighborRebuilds w x z ∧
    neighborRebuilds w x z =
      [((-1 : ℤ), (0 : ℤ)), (1, 0), (0, -1), (0, 1)].filterMap (fun d =>
        if (w (chunkCoordOf x + d.1, chunkCoordOf z + d.2)).isSome then
          some (chunkCoordOf x + d.1, chunkCoordOf z + d.2) else none) ∧
    ((w (chunkCoordOf x - 1, chunkCoordOf z)).isSome = true →
      (chunkCoordOf x - 1, chunkCoordOf z) ∈ (World.setBlock w x y z t).2) := by
  have hy : ¬(y < 0 ∨ 128 ≤ y) := by omega
  have hlx := localCoordOf_bounds x
  have hlz := localCoordOf_bounds z
  have hb : ¬(localCoordOf x < 0 ∨ (16 : ℤ) ≤ localCoordOf x ∨ y < 0 ∨ (128 : ℤ) ≤ y ∨
      localCoordOf z < 0 ∨ (16 : ℤ) ≤ localCoordOf z) := by omega
  obtain ⟨ch, hche⟩ := Option.isSome_iff_exists.mp hch
  have hjs : jsMod x 16 = 0 := jsMod_eq_zero_of_local hl
  have hrb : (World.setBlock w x y z t).2 =
      (chunkCoordOf x, chunkCoordOf z) :: neighborRebuilds w x z := by
    simp only [World.setBlock, if_neg hy, hche, Chunk.setBlock, if_neg hb]
    simp
  have hnb : neighborRebuilds w x z =
      [((-1 : ℤ), (0 : ℤ)), (1, 0), (0, -1), (0, 1)].filterMap (fun d =>
        if (w (chunkCoordOf x + d.1, chunkCoordOf z + d.2)).isSome then
          some (chunkCoordOf x + d.1, chunkCoordOf z + d.2) else none) := by
    unfold neighborRebuilds
    rw [hjs, if_pos (Or.inl rfl)]
  refine ⟨hrb, hnb, fun hW => ?_⟩
  rw [hrb, hnb]
  have e1 : chunkCoordOf x + (-1) = chunkCoordOf x - 1 := by ring
  have e2 : chunkCoordOf z + (0 : ℤ) = chunkCoordOf z := by ring
  refine List.mem_cons_of_mem _ (List.mem_filterMap.mpr ⟨((-1 : ℤ), (0 : ℤ)), by simp, ?_⟩)
  simp only [e1, e2]
  rw [if_pos hW]

/-- Witness for the amended C4: chunks `(0,0)` and `(-1,0)` loaded, write at
world `(0, 5, 5)`; the west neighbour `(-1,0)` is rebuilt. -/
theorem setBlock_boundary_rebuilds_witness :
    (0 : ℤ) ≤ 5 ∧ (5 : ℤ) < 128 ∧ localCoordOf 0 = 0 ∧
    (wWestPair (chunkCoordOf 0, chunkCoordOf 5)).isSome = true ∧
    ((wWestPair (chunkCoordOf 0 - 1, chunkCoordOf 5)).isSome = true →
      (chunkCoordOf 0 - 1, chunkCoordOf 5) ∈ (World.setBlock wWestPair 0 5 5 .GRASS).2) :=
  ⟨by decide, by decide, by decide, by decide,
    (setBlock_boundary_rebuilds wWestPair 0 5 5 .GRASS (by decide) (by decide) (by decide)
      (by decide)).2.2⟩
unseal Rat.add Rat.mul Rat.inv Rat.sub in
/-- Claim C7 counterexample: in the column exactly as the claim states it —
stone everywhere except `y = 50`, which is air — the ray cast from
`(0.5, 60, 0.5)` straight down starts inside stone (`y = 60` is stone), so
the very first sample hits: the result is position `(0, 60, 0)` with normal
`(0, 0, 0)`, not position `(0, 49, 0)` with normal `(0, 1, 0)`. -/
theorem raycast_flat_column_counterexample :
    World.getBlock wLiteral 0 50 0 = .AIR ∧
    World.getBlock wLiteral 0 60 0 = .STONE ∧
    World.getBlock wLiteral 0 49 0 = .STONE ∧
    World.raycast wLiteral (1 / 2, 60, 1 / 2) (0, -1, 0) 15 =
      some ⟨(0, 60, 0), (0, 0, 0), .STONE⟩ ∧
    ((0 : ℤ), (60 : ℤ), (0 : ℤ)) ≠ ((0 : ℤ), (49 : ℤ), (0 : ℤ)) := by decide

unseal Rat.add Rat.mul Rat.inv Rat.sub in
/-- Claim C7, amended: with the column air from `y = 50` upwards and stone
strictly below (the "first non-air below the air gap" reading), the ray from
`(0.5, 60, 0.5)` with direction `(0, -1, 0)` and max distance 15 marches
through the air and returns a hit at position `(0, 49, 0)` with block kind
stone and normal `(0, 1, 0)`. -/
theorem raycast_flat_column_amended :
    World.getBlock wGap 0 50 0 = .AIR ∧
    World.getBlock wGap 0 49 0 = .STONE ∧
    World.raycast wGap (1 / 2, 60, 1 / 2) (0, -1, 0) 15 =
      some ⟨(0, 49, 0), (0, 1, 0), .STONE⟩ := by decide
unseal Rat.add Rat.mul Rat.inv Rat.sub in
/-- Claim C5 counterexample: with the constant noise source 7/22, every
column's terrain height is `h = 20.5` — a real-valued, non-integer height
strictly between the sand threshold (12) and the stone threshold (24), so
the claim requires grass at `y = ⌊h - 1⌋ = 19`.  The generated column has
dirt there instead: for non-integer `h` the dirt branch `y < h - 1` fires
before the surface test, so the surface rule holds only for integer `h`. -/
theorem surface_rule_counterexample :
    terrainHeightAt noiseMid 30 0 0 = 41 / 2 ∧
    ratFloor (41 / 2 - 1) = 19 ∧
    ¬((41 / 2 : ℚ) < 12) ∧ ¬((41 / 2 : ℚ) > 24) ∧
    Chunk.generate noiseMid 1 30 0 0 randHalf 0 19 0 = .DIRT ∧
    BlockType.DIRT ≠ .GRASS := by decide

/-- Claim C5, amended: in a generated column of terrain height `h`, the voxel
at `y = ⌊h - 1⌋` is the threshold surface block (sand when `h < 12`, stone
when `h > 24`, otherwise grass) when `h` is an integer at least 2; for every
non-integer `h ≥ 2`, the voxel at `⌊h - 1⌋` is dirt instead, because the
strict `y < h - 1` dirt test captures it before the surface test. -/
theorem surface_block_rule :
    (∀ (h : ℚ) (n : ℤ), h = (n : ℚ) → 2 ≤ n →
      terrainBlock h (n - 1) =
        (if h < 12 then BlockType.SAND else if h > 24 then .STONE else .GRASS)) ∧
    (∀ h : ℚ, 2 ≤ h → (∀ m : ℤ, h ≠ (m : ℚ)) →
      terrainBlock h (ratFloor (h - 1)) = .DIRT) := by
  constructor
  · intro h n hn h2
    subst hn
    have c1 : ¬((n : ℤ) - 1 = 0) := by omega
    have c2 : ¬(((n - 1 : ℤ) : ℚ) < (n : ℚ) - 4) := by push_cast; linarith
    have c3 : ¬(((n - 1 : ℤ) : ℚ) < (n : ℚ) - 1) := by push_cast; linarith
    have c4 : (n : ℤ) - 1 = ratFloor ((n : ℚ) - 1) := by
      rw [ratFloor_eq]
      have : ((n : ℚ) - 1) = ((n - 1 : ℤ) : ℚ) := by push_cast; ring
      rw [this, Int.floor_intCast]
    rw [terrainBlock, if_neg c1, if_neg c2, if_neg c3, if_pos c4]
  · intro h h2 hni
    rw [terrainBlock, ratFloor_eq]
    have f1 : (1 : ℤ) ≤ ⌊h - 1⌋ := Int.le_floor.mpr (by push_cast; linarith)
    have f2 : (h - 1) - 1 < (⌊h - 1⌋ : ℚ) := Int.sub_one_lt_floor (h - 1)
    have f3 : (⌊h - 1⌋ : ℚ) ≤ h - 1 := Int.floor_le (h - 1)
    have f4 : (⌊h - 1⌋ : ℚ) ≠ h - 1 := by
      intro he
      exact hni (⌊h - 1⌋ + 1) (by push_cast; linarith)
    have c1 : ¬(⌊h - 1⌋ = (0 : ℤ)) := by omega
    have c2 : ¬((⌊h - 1⌋ : ℚ) < h - 4) := by linarith
    have c3 : (⌊h - 1⌋ : ℚ) < h - 1 := lt_of_le_of_ne f3 f4
    rw [if_neg c1, if_neg c2, if_pos c3]

unseal Rat.add Rat.mul Rat.inv Rat.sub in
/-- Witness for the amended C5: the integer height 15 puts grass at `y = 14`;
the non-integer height 5/2 puts dirt at `y = ⌊3/2⌋ = 1`. -/
theorem surface_block_rule_witness :
    ((15 : ℚ) = ((15 : ℤ) : ℚ) ∧ (2 : ℤ) ≤ 15 ∧ terrainBlock 15 (15 - 1) = .GRASS) ∧
    ((2 : ℚ) ≤ 5 / 2 ∧ terrainBlock (5 / 2) (ratFloor (5 / 2 - 1)) = .DIRT) := by
  refine ⟨⟨by norm_num, by decide, ?_⟩, ⟨by decide, ?_⟩⟩
  · have := surface_block_rule.1 15 15 (by norm_num) (by decide)
    simpa using this
  · refine surface_block_rule.2 (5 / 2) (by decide) ?_
    intro m hm
    have h2 : ((5 : ℚ) / 2) * 2 = (m : ℚ) * 2 := by rw [hm]
    norm_num at h2
    have h3 : (5 : ℤ) = m * 2 := by exact_mod_cast h2
    omega
unseal Rat.add Rat.mul Rat.inv Rat.sub in
/-- Claim C1 counterexample: with the same noise source (constant 1/3, so
identical seed state and terrain height 21 with a grass surface everywhere)
and the same column coordinates, two `generate()` runs that see different
`Math.random()` tree draws produce different voxel arrays: with draws of 1/2
no tree is placed and `(2, 22, 2)` is air, while with draws of 0 the eligible
column `(2, 2)` receives a trunk and `(2, 22, 2)` is wood.  Generation
therefore depends on random state outside the noise source. -/
theorem generate_random_dependence :
    Chunk.generate noiseThird 5 30 0 0 randHalf 2 22 2 = .AIR ∧
    Chunk.generate noiseThird 5 30 0 0 randZero 2 22 2 = .WOOD ∧
    BlockType.AIR ≠ .WOOD := by decide

/-- Claim C1, amended: terrain generation is deterministic given the noise
source, the column coordinates AND the tree-placement randomness; in
particular, whenever the `Math.random()` draws stay at or above the 2% tree
probability in both runs (so no trees are placed), two `generate()` calls on
fresh chunks with identical seed produce identical voxel arrays.  The only
random state outside the noise source that generation reads is the tree
draws. -/
theorem generate_deterministic_given_rand (noise : ℚ → ℚ → ℚ) (size height cx cz : ℤ)
    (r1 r2 : ℕ → ℚ) (h1 : ∀ i, 2 / 100 ≤ r1 i) (h2 : ∀ i, 2 / 100 ≤ r2 i) :
    Chunk.generate noise size height cx cz r1 =
      Chunk.generate noise size height cx cz r2 := by
  have step : ∀ (s : ChunkData × ℕ) (xz : ℤ × ℤ),
      generateColumn noise size height r1 cx cz xz.1 xz.2 s =
      generateColumn noise size height r2 cx cz xz.1 xz.2 s := by
    intro s xz
    have n1 : ¬(r1 s.2 < 2 / 100) := not_lt.mpr (h1 s.2)
    have n2 : ¬(r2 s.2 < 2 / 100) := not_lt.mpr (h2 s.2)
    unfold generateColumn
    split_ifs
    rfl
  unfold Chunk.generate
  rw [List.foldl_ext _ _ _ (fun a b _ => step a b)]

unseal Rat.add Rat.mul Rat.inv Rat.sub in
/-- Witness for the amended C1: two no-tree random streams (constant 1/2 and
constant 9/10) generate identical chunks. -/
theorem generate_deterministic_given_rand_witness :
    (∀ i : ℕ, (2 : ℚ) / 100 ≤ randHalf i) ∧ (∀ i : ℕ, (2 : ℚ) / 100 ≤ randNine i) ∧
    Chunk.generate noiseThird 5 30 0 0 randHalf =
      Chunk.generate noiseThird 5 30 0 0 randNine :=
  ⟨fun _ => by norm_num [randHalf], fun _ => by norm_num [randNine],
    generate_deterministic_given_rand noiseThird 5 30 0 0 randHalf randNine
      (fun _ => by norm_num [randHalf]) (fun _ => by norm_num [randNine])⟩
/-- Unfolds membership in the chunk's voxel-position box. -/
theorem mem_chunkBox_iff (size height : ℤ) (p : ℤ × ℤ × ℤ) :
    p ∈ chunkBox size height ↔
      (0 ≤ p.1 ∧ p.1 < size) ∧ (0 ≤ p.2.1 ∧ p.2.1 < height) ∧
        (0 ≤ p.2.2 ∧ p.2.2 < size) := by
  simp only [chunkBox, Finset.mem_product, Finset.mem_Icc]
  omega

/-- A quad is in the emitted geometry iff its voxel is iterated over and the
emission condition holds. -/
theorem mem_updateMeshFaces (size height : ℤ) (b : ChunkData) (world : Option WorldLookup)
    (cx cz : ℤ) (q : ℤ × ℤ × ℤ) (j : Fin 6) :
    (q, j) ∈ updateMeshFaces size height b world cx cz ↔
      q ∈ chunkBox size height ∧ emitsFace size height b world cx cz q j = true := by
  simp [updateMeshFaces, Finset.mem_filter, Finset.mem_product]

/-- First component of the opposite face direction. -/
theorem dirVec_opp_fst : ∀ i : Fin 6, (dirVec (oppDir i)).1 = -(dirVec i).1 := by decide

/-- Second component of the opposite face direction. -/
theorem dirVec_opp_snd : ∀ i : Fin 6, (dirVec (oppDir i)).2.1 = -(dirVec i).2.1 := by decide

/-- Third component of the opposite face direction. -/
theorem dirVec_opp_thd : ∀ i : Fin 6, (dirVec (oppDir i)).2.2 = -(dirVec i).2.2 := by decide

/-- A face against an in-bounds neighbour of the same non-air kind is culled. -/
theorem isFaceVisible_inBounds_same (size height : ℤ) (b : ChunkData)
    (world : Option WorldLookup) (cx cz x y z dx dy dz nx ny nz : ℤ)
    (hnx : nx = x + dx) (hny : ny = y + dy) (hnz : nz = z + dz)
    (hbounds : 0 ≤ nx ∧ nx < size ∧ 0 ≤ ny ∧ ny < height ∧ 0 ≤ nz ∧ nz < size)
    (heq : b nx ny nz = b x y z) (hair : b x y z ≠ .AIR) :
    Chunk.isFaceVisible size height b world cx cz x y z dx dy dz = false := by
  subst hnx hny hnz
  simp only [Chunk.isFaceVisible]
  rw [if_neg (by omega), if_neg (by rw [heq]; exact hair), if_neg (by rw [heq]; simp)]
  simp [heq]

/-- A face against an in-bounds air neighbour is visible. -/
theorem isFaceVisible_inBounds_air (size height : ℤ) (b : ChunkData)
    (world : Option WorldLookup) (cx cz x y z dx dy dz nx ny nz : ℤ)
    (hnx : nx = x + dx) (hny : ny = y + dy) (hnz : nz = z + dz)
    (hbounds : 0 ≤ nx ∧ nx < size ∧ 0 ≤ ny ∧ ny < height ∧ 0 ≤ nz ∧ nz < size)
    (hadj : b nx ny nz = .AIR) :
    Chunk.isFaceVisible size height b world cx cz x y z dx dy dz = true := by
  subst hnx hny hnz
  simp only [Chunk.isFaceVisible]
  rw [if_neg (by omega), if_pos hadj]

/-- Resolution of a world read into a loaded chunk: for `y` within the world
height and the owning chunk loaded, `World.getBlock` returns that chunk's
voxel at the adjusted local coordinates. -/
theorem getBlock_loaded (w : WorldChunks) (t y u : ℤ) (bB : ChunkData)
    (hy0 : 0 ≤ y) (hy1 : y < 128)
    (hB : w (chunkCoordOf t, chunkCoordOf u) = some bB) :
    World.getBlock w t y u = bB (localCoordOf t) y (localCoordOf u) := by
  have h1 := localCoordOf_bounds t
  have h2 := localCoordOf_bounds u
  simp only [World.getBlock, if_neg (show ¬(y < 0 ∨ 128 ≤ y) by omega), hB,
    Chunk.getBlock, if_neg (show ¬(localCoordOf t < 0 ∨ (16 : ℤ) ≤ localCoordOf t ∨ y < 0 ∨
      (128 : ℤ) ≤ y ∨ localCoordOf u < 0 ∨ (16 : ℤ) ≤ localCoordOf u) by omega)]

/-- Cross-chunk branch of `isFaceVisible`: a face whose neighbour lies outside
the chunk and whose world read returns the same non-air kind is culled. -/
theorem isFaceVisible_out_same (size height : ℤ) (b : ChunkData) (getB : WorldLookup)
    (cx cz x y z dx dy dz : ℤ)
    (hout : x + dx < 0 ∨ size ≤ x + dx ∨ y + dy < 0 ∨ height ≤ y + dy ∨
      z + dz < 0 ∨ size ≤ z + dz)
    (hadj : getB (cx * size + x + dx) (y + dy) (cz * size + z + dz) = b x y z)
    (hair : b x y z ≠ .AIR) :
    Chunk.isFaceVisible size height b (some getB) cx cz x y z dx dy dz = false := by
  simp only [Chunk.isFaceVisible, if_pos hout, hadj, if_neg hair]
  simp

/-- Cross-chunk branch of `isFaceVisible`: a face whose neighbour lies outside
the chunk and whose world read returns air is visible. -/
theorem isFaceVisible_out_air (size height : ℤ) (b : ChunkData) (getB : WorldLookup)
    (cx cz x y z dx dy dz : ℤ)
    (hout : x + dx < 0 ∨ size ≤ x + dx ∨ y + dy < 0 ∨ height ≤ y + dy ∨
      z + dz < 0 ∨ size ≤ z + dz)
    (hadj : getB (cx * size + x + dx) (y + dy) (cz * size + z + dz) = .AIR) :
    Chunk.isFaceVisible size height b (some getB) cx cz x y z dx dy dz = true := by
  simp only [Chunk.isFaceVisible, if_pos hout, hadj]
  simp

set_option maxRecDepth 8000 in
/-- Culling across a horizontal chunk seam, at the component level: chunk A at
`(cxa, cza)` and chunk B at its horizontal neighbour `(cxa+dx, cza+dz)` are
both loaded in `w`, local voxel `(x, y, z)` of A sits on the seam (pinned by
`hcross`), and `(qx, y, qz)` is the same boundary's voxel in B.  A's mesh pass
reaches the neighbour through `World.getBlock` (the chunk's world
back-reference) and B's pass reads A back the same way: equal non-transparent
kinds produce no quad on either side, and a solid voxel against air across
the seam produces exactly A's quad. -/
theorem seam_block (w : WorldChunks) (cxa cza : ℤ) (bA bB : ChunkData)
    (x y z dx dz qx qz : ℤ) (i j : Fin 6)
    (hix : (dirVec i).1 = dx) (hiy : (dirVec i).2.1 = 0) (hiz : (dirVec i).2.2 = dz)
    (hjx : (dirVec j).1 = -dx) (hjy : (dirVec j).2.1 = 0) (hjz : (dirVec j).2.2 = -dz)
    (hA : w (cxa, cza) = some bA) (hB : w (cxa + dx, cza + dz) = some bB)
    (hpc : 0 ≤ x ∧ x < 16 ∧ 0 ≤ y ∧ y < 128 ∧ 0 ≤ z ∧ z < 16)
    (hqx : qx = x + dx - 16 * dx) (hqz : qz = z + dz - 16 * dz)
    (hcross : (dx = 1 ∧ dz = 0 ∧ x = 15) ∨ (dx = -1 ∧ dz = 0 ∧ x = 0) ∨
      (dx = 0 ∧ dz = 1 ∧ z = 15) ∨ (dx = 0 ∧ dz = -1 ∧ z = 0)) :
    (bA x y z = bB qx y qz ∧ bA x y z ∉ transparentTypes ∧ bA x y z ≠ .AIR →
      ((x, y, z), i) ∉ updateMeshFaces 16 128 bA (some (World.getBlock w)) cxa cza ∧
      ((qx, y, qz), j) ∉ updateMeshFaces 16 128 bB (some (World.getBlock w))
        (cxa + dx) (cza + dz)) ∧
    (bA x y z ≠ .AIR ∧ bA x y z ∉ transparentTypes ∧ bB qx y qz = .AIR →
      ((x, y, z), i) ∈ updateMeshFaces 16 128 bA (some (World.getBlock w)) cxa cza ∧
      ((qx, y, qz), j) ∉ updateMeshFaces 16 128 bB (some (World.getBlock w))
        (cxa + dx) (cza + dz)) := by
  have e1 : chunkCoordOf (cxa * 16 + x + dx) = cxa + dx := by unfold chunkCoordOf; omega
  have e2 : chunkCoordOf (cza * 16 + z + dz) = cza + dz := by unfold chunkCoordOf; omega
  have e3 : localCoordOf (cxa * 16 + x + dx) = qx := by rw [localCoordOf_eq_emod]; omega
  have e4 : localCoordOf (cza * 16 + z + dz) = qz := by rw [localCoordOf_eq_emod]; omega
  have f1 : chunkCoordOf ((cxa + dx) * 16 + qx + -dx) = cxa := by unfold chunkCoordOf; omega
  have f2 : chunkCoordOf ((cza + dz) * 16 + qz + -dz) = cza := by unfold chunkCoordOf; omega
  have f3 : localCoordOf ((cxa + dx) * 16 + qx + -dx) = x := by
    rw [localCoordOf_eq_emod]; omega
  have f4 : localCoordOf ((cza + dz) * 16 + qz + -dz) = z := by
    rw [localCoordOf_eq_emod]; omega
  have hresA : World.getBlock w (cxa * 16 + x + dx) (y + 0) (cza * 16 + z + dz) =
      bB qx y qz := by
    rw [show y + (0 : ℤ) = y from by ring,
      getBlock_loaded w _ y _ bB (by omega) (by omega) (by rw [e1, e2]; exact hB), e3, e4]
  have hresB : World.getBlock w ((cxa + dx) * 16 + qx + -dx) (y + 0)
      ((cza + dz) * 16 + qz + -dz) = bA x y z := by
    rw [show y + (0 : ℤ) = y from by ring,
      getBlock_loaded w _ y _ bA (by omega) (by omega) (by rw [f1, f2]; exact hA), f3, f4]
  have houtA : x + dx < 0 ∨ (16 : ℤ) ≤ x + dx ∨ y + 0 < 0 ∨ (128 : ℤ) ≤ y + 0 ∨
      z + dz < 0 ∨ (16 : ℤ) ≤ z + dz := by omega
  have houtB : qx + -dx < 0 ∨ (16 : ℤ) ≤ qx + -dx ∨ y + 0 < 0 ∨ (128 : ℤ) ≤ y + 0 ∨
      qz + -dz < 0 ∨ (16 : ℤ) ≤ qz + -dz := by omega
  have hpbox : ((x, y, z) : ℤ × ℤ × ℤ) ∈ chunkBox 16 128 := by
    rw [mem_chunkBox_iff]; simp only; omega
  constructor
  · rintro ⟨heq, -, hair⟩
    constructor
    · rw [mem_updateMeshFaces]
      rintro ⟨-, hem⟩
      have hv := isFaceVisible_out_same 16 128 bA (World.getBlock w) cxa cza
        x y z dx 0 dz houtA (by rw [hresA, ← heq]) hair
      simp only [emitsFace, hix, hiy, hiz, hv, Bool.and_false] at hem
      exact Bool.false_ne_true hem
    · rw [mem_updateMeshFaces]
      rintro ⟨-, hem⟩
      have hv := isFaceVisible_out_same 16 128 bB (World.getBlock w) (cxa + dx) (cza + dz)
        qx y qz (-dx) 0 (-dz) houtB (by rw [hresB, heq]) (by rw [← heq]; exact hair)
      simp only [emitsFace, hjx, hjy, hjz, hv, Bool.and_false] at hem
      exact Bool.false_ne_true hem
  · rintro ⟨hair, -, hadj⟩
    constructor
    · rw [mem_updateMeshFaces]
      refine ⟨hpbox, ?_⟩
      have hv := isFaceVisible_out_air 16 128 bA (World.getBlock w) cxa cza
        x y z dx 0 dz houtA (by rw [hresA, hadj])
      simp only [emitsFace, hix, hiy, hiz, hv, Bool.and_true]
      simp [hair]
    · rw [mem_updateMeshFaces]
      rintro ⟨-, hem⟩
      simp only [emitsFace, hadj] at hem
      simp at hem

set_option maxRecDepth 8000 in
/-- Claim C6: face-culling symmetry in the geometry produced by `updateMesh`,
for both halves of the claim's "every pair of adjacent voxels".  Part one —
adjacency inside one chunk: for two adjacent in-bounds voxels of the same
non-transparent kind, neither side's quad is in the emitted face set, and a
non-transparent voxel adjacent to in-bounds air yields exactly the one quad
on the non-transparent side.  Part two — adjacency across a horizontal chunk
seam, where the visibility test defers to the world read: with both chunks
loaded, equal non-transparent kinds facing each other across the seam emit no
quad into either chunk's geometry, and a non-transparent voxel facing air in
the neighbouring chunk emits exactly the one quad on its own side.  The face
set holds each (position, direction) pair at most once, so "exactly one quad"
is membership on the solid side and non-membership on the other. -/
theorem face_culling_symmetry :
    (∀ (size height : ℤ) (b : ChunkData) (world : Option WorldLookup) (cx cz x y z : ℤ)
        (i : Fin 6),
      (x, y, z) ∈ chunkBox size height →
      (x + (dirVec i).1, y + (dirVec i).2.1, z + (dirVec i).2.2) ∈ chunkBox size height →
      (b x y z = b (x + (dirVec i).1) (y + (dirVec i).2.1) (z + (dirVec i).2.2) ∧
          b x y z ∉ transparentTypes ∧ b x y z ≠ .AIR →
        ((x, y, z), i) ∉ updateMeshFaces size height b world cx cz ∧
        ((x + (dirVec i).1, y + (dirVec i).2.1, z + (dirVec i).2.2), oppDir i) ∉
          updateMeshFaces size height b world cx cz) ∧
      (b x y z ≠ .AIR ∧ b x y z ∉ transparentTypes ∧
          b (x + (dirVec i).1) (y + (dirVec i).2.1) (z + (dirVec i).2.2) = .AIR →
        ((x, y, z), i) ∈ updateMeshFaces size height b world cx cz ∧
        ((x + (dirVec i).1, y + (dirVec i).2.1, z + (dirVec i).2.2), oppDir i) ∉
          updateMeshFaces size height b world cx cz)) ∧
    (∀ (w : WorldChunks) (cxa cza : ℤ) (bA bB : ChunkData) (x y z : ℤ) (i : Fin 6),
      (dirVec i).2.1 = 0 →
      w (cxa, cza) = some bA →
      w (cxa + (dirVec i).1, cza + (dirVec i).2.2) = some bB →
      (x, y, z) ∈ chunkBox 16 128 →
      (x + (dirVec i).1, y, z + (dirVec i).2.2) ∉ chunkBox 16 128 →
      (bA x y z = bB (x + (dirVec i).1 - 16 * (dirVec i).1) y
            (z + (dirVec i).2.2 - 16 * (dirVec i).2.2) ∧
          bA x y z ∉ transparentTypes ∧ bA x y z ≠ .AIR →
        ((x, y, z), i) ∉ updateMeshFaces 16 128 bA (some (World.getBlock w)) cxa cza ∧
        ((x + (dirVec i).1 - 16 * (dirVec i).1, y,
            z + (dirVec i).2.2 - 16 * (dirVec i).2.2), oppDir i) ∉
          updateMeshFaces 16 128 bB (some (World.getBlock w))
            (cxa + (dirVec i).1) (cza + (dirVec i).2.2)) ∧
      (bA x y z ≠ .AIR ∧ bA x y z ∉ transparentTypes ∧
          bB (x + (dirVec i).1 - 16 * (dirVec i).1) y
            (z + (dirVec i).2.2 - 16 * (dirVec i).2.2) = .AIR →
        ((x, y, z), i) ∈ updateMeshFaces 16 128 bA (some (World.getBlock w)) cxa cza ∧
        ((x + (dirVec i).1 - 16 * (dirVec i).1, y,
            z + (dirVec i).2.2 - 16 * (dirVec i).2.2), oppDir i) ∉
          updateMeshFaces 16 128 bB (some (World.getBlock w))
            (cxa + (dirVec i).1) (cza + (dirVec i).2.2))) := by
  constructor
  · intro size height b world cx cz x y z i hp hn
    have hpc := (mem_chunkBox_iff size height (x, y, z)).mp hp
    have hnc := (mem_chunkBox_iff size height _).mp hn
    simp only at hpc hnc
    constructor
    · rintro ⟨heq, -, hair⟩
      constructor
      · rw [mem_updateMeshFaces]
        rintro ⟨-, hem⟩
        have hv := isFaceVisible_inBounds_same size height b world cx cz x y z
          (dirVec i).1 (dirVec i).2.1 (dirVec i).2.2 _ _ _ rfl rfl rfl
          (by omega) heq.symm hair
        simp [emitsFace, hv] at hem
      · rw [mem_updateMeshFaces]
        rintro ⟨-, hem⟩
        have hv := isFaceVisible_inBounds_same size height b world cx cz
          (x + (dirVec i).1) (y + (dirVec i).2.1) (z + (dirVec i).2.2)
          (dirVec (oppDir i)).1 (dirVec (oppDir i)).2.1 (dirVec (oppDir i)).2.2 x y z
          (by rw [dirVec_opp_fst]; ring) (by rw [dirVec_opp_snd]; ring)
          (by rw [dirVec_opp_thd]; ring) (by omega) heq (by rw [← heq]; exact hair)
        simp [emitsFace, hv] at hem
    · rintro ⟨hair, -, hadj⟩
      constructor
      · rw [mem_updateMeshFaces]
        refine ⟨hp, ?_⟩
        have hv := isFaceVisible_inBounds_air size height b world cx cz x y z
          (dirVec i).1 (dirVec i).2.1 (dirVec i).2.2 _ _ _ rfl rfl rfl (by omega) hadj
        simp [emitsFace, hv, hair]
      · rw [mem_updateMeshFaces]
        rintro ⟨-, hem⟩
        simp [emitsFace, hadj] at hem
  · intro w cxa cza bA bB x y z i hdy hA hB hp hout
    have hpc := (mem_chunkBox_iff 16 128 (x, y, z)).mp hp
    simp only at hpc
    rw [mem_chunkBox_iff] at hout
    simp only at hout
    have hd : ((dirVec i).1 = 1 ∧ (dirVec i).2.2 = 0) ∨
        ((dirVec i).1 = -1 ∧ (dirVec i).2.2 = 0) ∨
        ((dirVec i).1 = 0 ∧ (dirVec i).2.2 = 1) ∨
        ((dirVec i).1 = 0 ∧ (dirVec i).2.2 = -1) := by
      fin_cases i <;> first | exact absurd hdy (by decide) | decide
    have hcross : ((dirVec i).1 = 1 ∧ (dirVec i).2.2 = 0 ∧ x = 15) ∨
        ((dirVec i).1 = -1 ∧ (dirVec i).2.2 = 0 ∧ x = 0) ∨
        ((dirVec i).1 = 0 ∧ (dirVec i).2.2 = 1 ∧ z = 15) ∨
        ((dirVec i).1 = 0 ∧ (dirVec i).2.2 = -1 ∧ z = 0) := by omega
    exact seam_block w cxa cza bA bB x y z (dirVec i).1 (dirVec i).2.2
      (x + (dirVec i).1 - 16 * (dirVec i).1) (z + (dirVec i).2.2 - 16 * (dirVec i).2.2)
      i (oppDir i) rfl hdy rfl (dirVec_opp_fst i)
      (by rw [dirVec_opp_snd, hdy]; exact neg_zero) (dirVec_opp_thd i)
      hA hB (by omega) rfl rfl hcross

set_option maxRecDepth 8000 in
/-- Witness for C6, exercising both parts.  In-chunk: a 2-wide, 1-high
all-stone chunk with no world reference, where the boundary between `(0,0,0)`
and `(1,0,0)` contributes no quad from either side.  Cross-chunk: all-stone
chunks loaded at `(0,0)` and `(1,0)`, where the seam pair — local `(15,5,5)`
of the west chunk against local `(0,5,5)` of the east chunk, resolved through
`World.getBlock` — contributes no quad to either chunk's geometry. -/
theorem face_culling_symmetry_witness :
    (((0 : ℤ), (0 : ℤ), (0 : ℤ)) ∈ chunkBox 2 1) ∧
    ((((0 : ℤ) + (dirVec 0).1, (0 : ℤ) + (dirVec 0).2.1, (0 : ℤ) + (dirVec 0).2.2)) ∈
      chunkBox 2 1) ∧
    (chStone 0 0 0 = chStone (0 + (dirVec 0).1) (0 + (dirVec 0).2.1) (0 + (dirVec 0).2.2) ∧
        chStone 0 0 0 ∉ transparentTypes ∧ chStone 0 0 0 ≠ .AIR →
      ((((0 : ℤ), (0 : ℤ), (0 : ℤ)), (0 : Fin 6)) ∉ updateMeshFaces 2 1 chStone none 0 0) ∧
      ((((0 : ℤ) + (dirVec 0).1, (0 : ℤ) + (dirVec 0).2.1, (0 : ℤ) + (dirVec 0).2.2),
          oppDir 0) ∉ updateMeshFaces 2 1 chStone none 0 0)) ∧
    ((dirVec (0 : Fin 6)).2.1 = 0) ∧
    (wEastPair (0, 0) = some chStone) ∧
    (wEastPair (0 + (dirVec (0 : Fin 6)).1, 0 + (dirVec (0 : Fin 6)).2.2) = some chStone) ∧
    (((15 : ℤ), (5 : ℤ), (5 : ℤ)) ∈ chunkBox 16 128) ∧
    (((15 : ℤ) + (dirVec (0 : Fin 6)).1, (5 : ℤ), (5 : ℤ) + (dirVec (0 : Fin 6)).2.2) ∉
      chunkBox 16 128) ∧
    (chStone 15 5 5 =
          chStone (15 + (dirVec (0 : Fin 6)).1 - 16 * (dirVec (0 : Fin 6)).1) 5
            (5 + (dirVec (0 : Fin 6)).2.2 - 16 * (dirVec (0 : Fin 6)).2.2) ∧
        chStone 15 5 5 ∉ transparentTypes ∧ chStone 15 5 5 ≠ .AIR →
      ((((15 : ℤ), (5 : ℤ), (5 : ℤ)), (0 : Fin 6)) ∉
        updateMeshFaces 16 128 chStone (some (World.getBlock wEastPair)) 0 0) ∧
      ((((15 : ℤ) + (dirVec (0 : Fin 6)).1 - 16 * (dirVec (0 : Fin 6)).1, (5 : ℤ),
            (5 : ℤ) + (dirVec (0 : Fin 6)).2.2 - 16 * (dirVec (0 : Fin 6)).2.2),
          oppDir 0) ∉
        updateMeshFaces 16 128 chStone (some (World.getBlock wEastPair))
          (0 + (dirVec (0 : Fin 6)).1) (0 + (dirVec (0 : Fin 6)).2.2))) :=
  ⟨by decide, by decide,
    (face_culling_symmetry.1 2 1 chStone none 0 0 0 0 0 0 (by decide) (by decide)).1,
    by decide, rfl, rfl, by rw [mem_chunkBox_iff]; decide,
    by rw [mem_chunkBox_iff]; decide,
    (face_culling_symmetry.2 wEastPair 0 0 chStone chStone 15 5 5 0 (by decide) rfl rfl
      (by rw [mem_chunkBox_iff]; decide) (by rw [mem_chunkBox_iff]; decide)).1⟩

/-- Witness for C8: at `y = -5` (below the world) the read over a loaded world
returns air and the write leaves the world untouched with no rebuilds; the
chunk-level accesses at local `x = -1` behave the same way. -/
theorem out_of_range_degradation_witness :
    ((-5 : ℤ) < 0 ∨ (128 : ℤ) ≤ -5) ∧
    World.getBlock wOrigin 3 (-5) 3 = .AIR ∧
    World.setBlock wOrigin 3 (-5) 3 .GRASS = (wOrigin, []) ∧
    ((-1 : ℤ) < 0 ∨ (16 : ℤ) ≤ -1 ∨ (5 : ℤ) < 0 ∨ (128 : ℤ) ≤ 5 ∨ (3 : ℤ) < 0 ∨
      (16 : ℤ) ≤ 3) ∧
    Chunk.getBlock 16 128 chStone (-1) 5 3 = .AIR ∧
    Chunk.setBlock 16 128 chStone (-1) 5 3 .GRASS = (chStone, false) :=
  ⟨Or.inl (by decide),
    ((out_of_range_degradation wOrigin 3 (-5) 3 .GRASS).1 (Or.inl (by decide))).1,
    ((out_of_range_degradation wOrigin 3 (-5) 3 .GRASS).1 (Or.inl (by decide))).2,
    Or.inl (by decide),
    ((out_of_range_degradation wOrigin (-1) 5 3 .GRASS).2.2 16 128 chStone
      (Or.inl (by decide))).1,
    ((out_of_range_degradation wOrigin (-1) 5 3 .GRASS).2.2 16 128 chStone
      (Or.inl (by decide))).2⟩
